import Mathlib

/-!
Verification of the affine-scaling interior-point iteration engine
(`src/interior.rs`) and the cost-sign convention of its problem-builder
caller (`src/components/mod.rs`).

The Rust code works on dense `f64` matrices from nalgebra; the embedding
models the real arithmetic exactly over `ℚ`, with matrices as Mathlib
matrices indexed by `Fin`.  Decimal literals of the source (`1e-8`, `0.5`,
`1e-3`) become the corresponding exact rationals.  nalgebra's
`try_inverse` computes the inverse of an invertible square matrix and
fails on a singular one; it is modelled as `try_inverse` below, returning
`some` exactly on matrices with nonzero determinant.  The in-place
mutation of `InteriorPointProblem` by `perform_interior_point_iteration`
is modelled by returning the post-call problem state next to the
`Result`.
-/

/-- The threshold `1e-8` used throughout `interior.rs` (diagonal clamp,
regularization, no-improvement tolerance). -/
def eps : ℚ := 1 / 100000000

/-- `InteriorPointProblem` from `interior.rs` (m×n constraint matrix `A`,
right-hand side `b`, cost `c`, current iterate `x`, step parameter
`alpha`, and the unused `constraint_types`). -/
structure InteriorPointProblem (m n : ℕ) where
  a_matrix : Matrix (Fin m) (Fin n) ℚ
  b_vector : Fin m → ℚ
  c_vector : Fin n → ℚ
  x_vector : Fin n → ℚ
  alpha : ℚ
  constraint_types : List String

/-- `InteriorPointIteration` from `interior.rs`: the snapshot of one
iteration. -/
structure InteriorPointIteration (m n : ℕ) where
  d_matrix : Matrix (Fin n) (Fin n) ℚ
  a_tilde_matrix : Matrix (Fin m) (Fin n) ℚ
  c_tilde_vector : Fin n → ℚ
  p_matrix : Matrix (Fin n) (Fin n) ℚ
  cp_vector : Fin n → ℚ
  current_x : Fin n → ℚ

/-- `InteriorPointError` from `interior.rs`. -/
inductive InteriorPointError where
  | NoImprovement
  | NotFeasible
  | SingularMatrix (msg : String)
  deriving DecidableEq

/-- `create_d_matrix`: `D = diag(x)` with each diagonal entry clamped to
at least `1e-8`. -/
def create_d_matrix {n : ℕ} (x : Fin n → ℚ) : Matrix (Fin n) (Fin n) ℚ :=
  Matrix.diagonal (fun i => max (x i) eps)

/-- `calculate_a_tilde`: `A~ = A * D`. -/
def calculate_a_tilde {m n : ℕ} (a : Matrix (Fin m) (Fin n) ℚ)
    (d : Matrix (Fin n) (Fin n) ℚ) : Matrix (Fin m) (Fin n) ℚ :=
  a * d

/-- `calculate_c_tilde`: `c~ = D * c`. -/
def calculate_c_tilde {n : ℕ} (c : Fin n → ℚ)
    (d : Matrix (Fin n) (Fin n) ℚ) : Fin n → ℚ :=
  d.mulVec c

/-- nalgebra's `try_inverse`, modelled exactly: `some M⁻¹` when `M` is
invertible (nonzero determinant), `none` otherwise.  The inverse is given
by the adjugate formula. -/
def try_inverse {m : ℕ} (M : Matrix (Fin m) (Fin m) ℚ) :
    Option (Matrix (Fin m) (Fin m) ℚ) :=
  if M.det = 0 then none else some ((M.det)⁻¹ • M.adjugate)

/-- `calculate_p_matrix`: `P = I_n - A~ᵀ (A~ A~ᵀ + 1e-8 I_m)⁻¹ A~`, or
`SingularMatrix` when the regularized matrix cannot be inverted. -/
def calculate_p_matrix {m n : ℕ} (a_tilde : Matrix (Fin m) (Fin n) ℚ) :
    Except InteriorPointError (Matrix (Fin n) (Fin n) ℚ) :=
  let a_tilde_t := a_tilde.transpose
  let mtx := a_tilde * a_tilde_t + eps • (1 : Matrix (Fin m) (Fin m) ℚ)
  match try_inverse mtx with
  | none =>
      Except.error
        (InteriorPointError.SingularMatrix "Cannot invert (A_tilde * A_tilde^T)")
  | some mtx_inv =>
      Except.ok ((1 : Matrix (Fin n) (Fin n) ℚ) - a_tilde_t * mtx_inv * a_tilde)

/-- `calculate_cp_vector`: `cp = P * c~`. -/
def calculate_cp_vector {n : ℕ} (p : Matrix (Fin n) (Fin n) ℚ)
    (c_tilde : Fin n → ℚ) : Fin n → ℚ :=
  p.mulVec c_tilde

/-- One step of the `v` accumulation loop of `perform_interior_point_iteration`:
`if val < 0.0 && val.abs() > v { v = val.abs(); }`. -/
def neg_step (v val : ℚ) : ℚ :=
  if val < 0 ∧ |val| > v then |val| else v

/-- The loop computing `v`, the largest absolute value among negative
components of `cp` (`0` when none). -/
def neg_magnitude_max {n : ℕ} (cp : Fin n → ℚ) : ℚ :=
  (List.ofFn cp).foldl neg_step 0

/-- `perform_interior_point_iteration` from `interior.rs`.  The returned
pair is (the Rust `Result`, the `InteriorPointProblem` after the call) —
the second component models the in-place mutation through `&mut`. -/
def perform_interior_point_iteration {m n : ℕ}
    (problem : InteriorPointProblem m n) :
    Except InteriorPointError (InteriorPointIteration m n) ×
      InteriorPointProblem m n :=
  let d := create_d_matrix problem.x_vector
  let a_tilde := calculate_a_tilde problem.a_matrix d
  let c_tilde := calculate_c_tilde problem.c_vector d
  match calculate_p_matrix a_tilde with
  | Except.error e => (Except.error e, problem)
  | Except.ok p =>
    let cp := calculate_cp_vector p c_tilde
    let v := neg_magnitude_max cp
    if v < eps then
      (Except.error InteriorPointError.NoImprovement, problem)
    else
      let factor := max (min (problem.alpha / v) (1 / 2)) (1 / 1000)
      let new_x_tilde : Fin n → ℚ := fun i => 1 + factor * cp i
      let new_x := d.mulVec new_x_tilde
      (Except.ok
        { d_matrix := d
          a_tilde_matrix := a_tilde
          c_tilde_vector := c_tilde
          p_matrix := p
          cp_vector := cp
          current_x := new_x },
       { problem with x_vector := new_x })

/-- The `cp` vector the iteration derives from the current problem state
(`0` in the unreachable case where the projector step fails). -/
def iteration_cp {m n : ℕ} (problem : InteriorPointProblem m n) :
    Fin n → ℚ :=
  let d := create_d_matrix problem.x_vector
  match calculate_p_matrix (calculate_a_tilde problem.a_matrix d) with
  | Except.error _ => fun _ => 0
  | Except.ok p => calculate_cp_vector p (calculate_c_tilde problem.c_vector d)

/-- The `v` value the iteration derives from the current problem state. -/
def iteration_v {m n : ℕ} (problem : InteriorPointProblem m n) : ℚ :=
  neg_magnitude_max (iteration_cp problem)

/-- The cost-sign convention of `Msg::StartInteriorPoint` in
`components/mod.rs`: `let sign = if maximize { 1.0 } else { -1.0 };
let new_c = c.map(|val| val * sign);`. -/
def apply_cost_sign {n : ℕ} (maximize : Bool) (c : Fin n → ℚ) :
    Fin n → ℚ :=
  let sign : ℚ := if maximize then 1 else -1
  fun i => c i * sign

/-- The `InteriorPointProblem` built by `Msg::StartInteriorPoint` in
`components/mod.rs` (the branch where the supplied initial point already
has length `n`, so it is used as-is). -/
def start_interior_point {m n : ℕ} (a : Matrix (Fin m) (Fin n) ℚ)
    (b : Fin m → ℚ) (c : Fin n → ℚ) (alpha : ℚ) (initial : Fin n → ℚ)
    (maximize : Bool) : InteriorPointProblem m n :=
  { a_matrix := a
    b_vector := b
    c_vector := apply_cost_sign maximize c
    x_vector := initial
    alpha := alpha
    constraint_types := [] }

/-- The five-step formulas of spec §4.1–§4.5 as a relation between the
problem state at entry, the returned snapshot, and the post-call problem
state — this is the spec-side statement that claim C1 asserts of a
successful iteration (`v` below is the spec's
`max of |cp[i]| over cp[i] < 0`, `0` when no component is negative). -/
def matches_spec_formulas {m n : ℕ} (problem : InteriorPointProblem m n)
    (snap : InteriorPointIteration m n)
    (post : InteriorPointProblem m n) : Prop :=
  snap.d_matrix = Matrix.diagonal (fun i => max (problem.x_vector i) eps) ∧
  snap.a_tilde_matrix = problem.a_matrix * snap.d_matrix ∧
  snap.c_tilde_vector = snap.d_matrix.mulVec problem.c_vector ∧
  snap.p_matrix =
    (1 : Matrix (Fin n) (Fin n) ℚ) -
      snap.a_tilde_matrix.transpose *
        (snap.a_tilde_matrix * snap.a_tilde_matrix.transpose +
          eps • (1 : Matrix (Fin m) (Fin m) ℚ))⁻¹ * snap.a_tilde_matrix ∧
  snap.cp_vector = snap.p_matrix.mulVec snap.c_tilde_vector ∧
  (∃ v : ℚ,
    (((∀ i, 0 ≤ snap.cp_vector i) ∧ v = 0) ∨
      ((∃ i, snap.cp_vector i < 0 ∧ |snap.cp_vector i| = v) ∧
        ∀ i, snap.cp_vector i < 0 → |snap.cp_vector i| ≤ v)) ∧
    ∀ i, snap.current_x i =
      max (problem.x_vector i) eps *
        (1 + max (min (problem.alpha / v) (1 / 2)) (1 / 1000) *
          snap.cp_vector i)) ∧
  post.x_vector = snap.current_x ∧
  post.a_matrix = problem.a_matrix ∧
  post.b_vector = problem.b_vector ∧
  post.c_vector = problem.c_vector ∧
  post.alpha = problem.alpha ∧
  post.constraint_types = problem.constraint_types

/-- The value of `calculate_p_matrix` at the scaled matrix `[1, 0]`
(1×2), computed exactly. -/
def pA1 : Matrix (Fin 2) (Fin 2) ℚ := Matrix.of ![![1/100000001, 0], ![0, 1]]

/-- The value of `calculate_p_matrix` at the scaled matrix `[1, 1]`
(1×2), computed exactly. -/
def pA2 : Matrix (Fin 2) (Fin 2) ℚ :=
  Matrix.of ![![100000001/200000001, -(100000000/200000001)],
    ![-(100000000/200000001), 100000001/200000001]]

/-- A concrete problem on which the iteration succeeds:
`A = [1, 0]`, `b = [0]`, `c = [0, -2]`, `x = [1, 1]`, `alpha = 1/2`. -/
def demo_ok : InteriorPointProblem 1 2 :=
  { a_matrix := Matrix.of ![![1, 0]]
    b_vector := ![0]
    c_vector := ![0, -2]
    x_vector := ![1, 1]
    alpha := 1 / 2
    constraint_types := [] }

/-- The concrete scenario of spec §8: `A = [1, 1]`, `b = [4]`,
`c = [-1, -1]`, `x0 = [1, 1]`, `alpha = 0.5`. -/
def demo_no : InteriorPointProblem 1 2 :=
  { a_matrix := Matrix.of ![![1, 1]]
    b_vector := ![4]
    c_vector := ![-1, -1]
    x_vector := ![1, 1]
    alpha := 1 / 2
    constraint_types := [] }

/-- A concrete problem with a large negative projected cost component:
`A = [1, 0]`, `b = [0]`, `c = [0, -2000]`, `x = [1, 1]`, `alpha = 1/2`.
Here `alpha / v = 1/4000` falls below the `1e-3` clamp, so
`factor·v = 2 > 1` and the updated iterate leaves the positive orthant. -/
def demo_neg : InteriorPointProblem 1 2 :=
  { a_matrix := Matrix.of ![![1, 0]]
    b_vector := ![0]
    c_vector := ![0, -2000]
    x_vector := ![1, 1]
    alpha := 1 / 2
    constraint_types := [] }

/-- The strictly positive vector `[1e-9]`, whose single component lies
strictly below the clamp threshold `1e-8`. -/
def tiny_x : Fin 1 → ℚ := ![1 / 1000000000]

/-! ### Characterization of the `v` loop -/

theorem le_neg_step (v val : ℚ) : v ≤ neg_step v val := by
  unfold neg_step
  split
  · next h => exact le_of_lt h.2
  · exact le_refl v

theorem le_foldl_neg_step (l : List ℚ) (v : ℚ) : v ≤ l.foldl neg_step v := by
  induction l generalizing v with
  | nil => exact le_refl v
  | cons a l ih =>
    rw [List.foldl_cons]
    exact le_trans (le_neg_step v a) (ih (neg_step v a))

theorem foldl_neg_step_bound (l : List ℚ) (v val : ℚ) (hmem : val ∈ l)
    (hneg : val < 0) : |val| ≤ l.foldl neg_step v := by
  induction l generalizing v with
  | nil => cases hmem
  | cons a l ih =>
    rw [List.foldl_cons]
    rcases List.mem_cons.mp hmem with h | h
    · subst h
      refine le_trans ?_ (le_foldl_neg_step l (neg_step v val))
      unfold neg_step
      split
      · exact le_refl _
      · next h2 =>
        push_neg at h2
        exact h2 hneg
    · exact ih (neg_step v a) h

theorem foldl_neg_step_cases (l : List ℚ) (v : ℚ) :
    l.foldl neg_step v = v ∨
      ∃ val ∈ l, val < 0 ∧ |val| = l.foldl neg_step v := by
  induction l generalizing v with
  | nil => exact Or.inl rfl
  | cons a l ih =>
    rw [List.foldl_cons]
    rcases ih (neg_step v a) with h | ⟨val, hm, hneg, hv⟩
    · by_cases ha : a < 0 ∧ |a| > v
      · right
        refine ⟨a, List.mem_cons_self a l, ha.1, ?_⟩
        rw [h]
        unfold neg_step
        rw [if_pos ha]
      · left
        rw [h]
        unfold neg_step
        rw [if_neg ha]
    · exact Or.inr ⟨val, List.mem_cons_of_mem a hm, hneg, hv⟩

theorem neg_magnitude_max_nonneg {n : ℕ} (cp : Fin n → ℚ) :
    0 ≤ neg_magnitude_max cp :=
  le_foldl_neg_step _ 0

theorem neg_magnitude_max_ge {n : ℕ} (cp : Fin n → ℚ) (i : Fin n)
    (h : cp i < 0) : |cp i| ≤ neg_magnitude_max cp :=
  foldl_neg_step_bound _ 0 _ ((List.mem_ofFn cp (cp i)).mpr ⟨i, rfl⟩) h

theorem neg_magnitude_max_cases {n : ℕ} (cp : Fin n → ℚ) :
    neg_magnitude_max cp = 0 ∨
      ∃ i, cp i < 0 ∧ |cp i| = neg_magnitude_max cp := by
  rcases foldl_neg_step_cases (List.ofFn cp) 0 with h | ⟨val, hm, hneg, hv⟩
  · exact Or.inl h
  · obtain ⟨i, hi⟩ := (List.mem_ofFn cp val).mp hm
    exact Or.inr ⟨i, hi ▸ hneg, hi ▸ hv⟩

theorem neg_magnitude_max_of_nonneg {n : ℕ} (cp : Fin n → ℚ)
    (h : ∀ i, 0 ≤ cp i) : neg_magnitude_max cp = 0 := by
  rcases neg_magnitude_max_cases cp with h0 | ⟨i, hneg, _⟩
  · exact h0
  · exact absurd (h i) (not_le.mpr hneg)

/-! ### The regularized normal-equations matrix is positive definite,
hence always invertible in exact arithmetic -/

theorem regularized_det_ne_zero {m n : ℕ} (a_tilde : Matrix (Fin m) (Fin n) ℚ) :
    (a_tilde * a_tilde.transpose +
        eps • (1 : Matrix (Fin m) (Fin m) ℚ)).det ≠ 0 := by
  intro hdet
  obtain ⟨v, hv0, hvz⟩ := Matrix.exists_mulVec_eq_zero_iff.mpr hdet
  have hq : Matrix.dotProduct v
      ((a_tilde * a_tilde.transpose + eps • 1).mulVec v) = 0 := by
    rw [hvz, Matrix.dotProduct_zero]
  rw [Matrix.add_mulVec, Matrix.dotProduct_add] at hq
  have h1 : Matrix.dotProduct v ((a_tilde * a_tilde.transpose).mulVec v) =
      Matrix.dotProduct (a_tilde.transpose.mulVec v)
        (a_tilde.transpose.mulVec v) := by
    rw [← Matrix.mulVec_mulVec, Matrix.dotProduct_mulVec, ← Matrix.mulVec_transpose]
  have h2 : Matrix.dotProduct v
      (((eps • (1 : Matrix (Fin m) (Fin m) ℚ))).mulVec v) =
      eps * Matrix.dotProduct v v := by
    rw [Matrix.smul_mulVec_assoc, Matrix.one_mulVec, Matrix.dotProduct_smul,
      smul_eq_mul]
  rw [h1, h2] at hq
  have hnn : 0 ≤ Matrix.dotProduct (a_tilde.transpose.mulVec v)
      (a_tilde.transpose.mulVec v) :=
    Finset.sum_nonneg fun i _ => mul_self_nonneg _
  have hvv : 0 < Matrix.dotProduct v v := by
    rcases lt_or_eq_of_le (Finset.sum_nonneg
      fun i (_ : i ∈ Finset.univ) => mul_self_nonneg (v i)) with h | h
    · exact h
    · exact absurd (Matrix.dotProduct_self_eq_zero.mp h.symm) hv0
  have heps : (0 : ℚ) < eps := by norm_num [eps]
  nlinarith

theorem regularized_isUnit {m n : ℕ} (a_tilde : Matrix (Fin m) (Fin n) ℚ) :
    IsUnit (a_tilde * a_tilde.transpose + eps • (1 : Matrix (Fin m) (Fin m) ℚ)) := by
  rw [Matrix.isUnit_iff_isUnit_det, isUnit_iff_ne_zero]
  exact regularized_det_ne_zero a_tilde

/-! ### Structural lemmas about the projector step and the iteration -/

theorem calculate_p_matrix_eq_raw {m n : ℕ}
    (a_tilde : Matrix (Fin m) (Fin n) ℚ) :
    calculate_p_matrix a_tilde =
      Except.ok ((1 : Matrix (Fin n) (Fin n) ℚ) -
        a_tilde.transpose *
          (((a_tilde * a_tilde.transpose + eps • 1).det)⁻¹ •
            (a_tilde * a_tilde.transpose + eps • 1).adjugate) * a_tilde) := by
  simp only [calculate_p_matrix, try_inverse]
  rw [if_neg (regularized_det_ne_zero a_tilde)]

theorem calculate_p_matrix_eq {m n : ℕ}
    (a_tilde : Matrix (Fin m) (Fin n) ℚ) :
    calculate_p_matrix a_tilde =
      Except.ok ((1 : Matrix (Fin n) (Fin n) ℚ) -
        a_tilde.transpose *
          (a_tilde * a_tilde.transpose + eps • 1)⁻¹ * a_tilde) := by
  rw [calculate_p_matrix_eq_raw,
    Matrix.inv_def (a_tilde * a_tilde.transpose + eps • 1),
    Ring.inverse_eq_inv]

theorem calculate_p_matrix_ne_error {m n : ℕ}
    (a_tilde : Matrix (Fin m) (Fin n) ℚ) (e : InteriorPointError) :
    calculate_p_matrix a_tilde ≠ Except.error e := by
  rw [calculate_p_matrix_eq_raw]
  exact fun h => Except.noConfusion h

theorem iteration_cp_eq {m n : ℕ} (problem : InteriorPointProblem m n)
    (p : Matrix (Fin n) (Fin n) ℚ)
    (hp : calculate_p_matrix (calculate_a_tilde problem.a_matrix
        (create_d_matrix problem.x_vector)) = Except.ok p) :
    iteration_cp problem =
      calculate_cp_vector p (calculate_c_tilde problem.c_vector
        (create_d_matrix problem.x_vector)) := by
  simp only [iteration_cp, hp]

theorem perform_eq_no_improvement {m n : ℕ}
    (problem : InteriorPointProblem m n) (p : Matrix (Fin n) (Fin n) ℚ)
    (hp : calculate_p_matrix (calculate_a_tilde problem.a_matrix
        (create_d_matrix problem.x_vector)) = Except.ok p)
    (hv : iteration_v problem < eps) :
    perform_interior_point_iteration problem =
      (Except.error InteriorPointError.NoImprovement, problem) := by
  have hcp := iteration_cp_eq problem p hp
  have hv' : neg_magnitude_max (calculate_cp_vector p
      (calculate_c_tilde problem.c_vector
        (create_d_matrix problem.x_vector))) < eps := by
    rw [← hcp]
    exact hv
  simp only [perform_interior_point_iteration, hp]
  rw [if_pos hv']

theorem perform_eq_ok {m n : ℕ}
    (problem : InteriorPointProblem m n) (p : Matrix (Fin n) (Fin n) ℚ)
    (hp : calculate_p_matrix (calculate_a_tilde problem.a_matrix
        (create_d_matrix problem.x_vector)) = Except.ok p)
    (hv : ¬ iteration_v problem < eps) :
    perform_interior_point_iteration problem =
      (Except.ok
        { d_matrix := create_d_matrix problem.x_vector
          a_tilde_matrix := calculate_a_tilde problem.a_matrix
            (create_d_matrix problem.x_vector)
          c_tilde_vector := calculate_c_tilde problem.c_vector
            (create_d_matrix problem.x_vector)
          p_matrix := p
          cp_vector := iteration_cp problem
          current_x := (create_d_matrix problem.x_vector).mulVec
            (fun i => 1 +
              max (min (problem.alpha / iteration_v problem) (1 / 2)) (1 / 1000) *
                iteration_cp problem i) },
       { problem with
          x_vector := (create_d_matrix problem.x_vector).mulVec
            (fun i => 1 +
              max (min (problem.alpha / iteration_v problem) (1 / 2)) (1 / 1000) *
                iteration_cp problem i) }) := by
  have hcp := iteration_cp_eq problem p hp
  have hv' : ¬ neg_magnitude_max (calculate_cp_vector p
      (calculate_c_tilde problem.c_vector
        (create_d_matrix problem.x_vector))) < eps := by
    rw [← hcp]
    exact hv
  simp only [perform_interior_point_iteration, hp]
  rw [if_neg hv']
  have hveq : iteration_v problem = neg_magnitude_max (calculate_cp_vector p
      (calculate_c_tilde problem.c_vector
        (create_d_matrix problem.x_vector))) := by
    unfold iteration_v
    rw [hcp]
  rw [hcp, hveq]

theorem perform_snd_of_error {m n : ℕ}
    (problem : InteriorPointProblem m n) (e : InteriorPointError)
    (h : (perform_interior_point_iteration problem).1 = Except.error e) :
    (perform_interior_point_iteration problem).2 = problem := by
  obtain ⟨p, hp⟩ : ∃ p, calculate_p_matrix (calculate_a_tilde problem.a_matrix
      (create_d_matrix problem.x_vector)) = Except.ok p :=
    ⟨_, calculate_p_matrix_eq_raw _⟩
  by_cases hv : iteration_v problem < eps
  · rw [perform_eq_no_improvement problem p hp hv]
  · rw [perform_eq_ok problem p hp hv] at h
    exact absurd h (by simp)

theorem perform_fst_no_improvement_iff {m n : ℕ}
    (problem : InteriorPointProblem m n) :
    (perform_interior_point_iteration problem).1 =
        Except.error InteriorPointError.NoImprovement ↔
      iteration_v problem < eps := by
  obtain ⟨p, hp⟩ : ∃ p, calculate_p_matrix (calculate_a_tilde problem.a_matrix
      (create_d_matrix problem.x_vector)) = Except.ok p :=
    ⟨_, calculate_p_matrix_eq_raw _⟩
  constructor
  · intro h
    by_contra hv
    rw [perform_eq_ok problem p hp hv] at h
    exact absurd h (by simp)
  · intro hv
    rw [perform_eq_no_improvement problem p hp hv]

theorem perform_error_cases {m n : ℕ}
    (problem : InteriorPointProblem m n) (e : InteriorPointError)
    (h : (perform_interior_point_iteration problem).1 = Except.error e) :
    e = InteriorPointError.NoImprovement := by
  obtain ⟨p, hp⟩ : ∃ p, calculate_p_matrix (calculate_a_tilde problem.a_matrix
      (create_d_matrix problem.x_vector)) = Except.ok p :=
    ⟨_, calculate_p_matrix_eq_raw _⟩
  by_cases hv : iteration_v problem < eps
  · rw [perform_eq_no_improvement problem p hp hv] at h
    simpa using h.symm
  · rw [perform_eq_ok problem p hp hv] at h
    exact absurd h (by simp)

/-! ### Evaluation lemmas for the concrete scenarios -/

theorem neg_step_of_nonneg (v a : ℚ) (ha : 0 ≤ a) : neg_step v a = v := by
  unfold neg_step
  rw [if_neg]
  rintro ⟨h, -⟩
  exact absurd ha (not_le.mpr h)

theorem neg_step_of_gt (v a : ℚ) (ha : a < 0) (h : v < -a) :
    neg_step v a = -a := by
  unfold neg_step
  rw [if_pos ⟨ha, by rwa [abs_of_neg ha]⟩, abs_of_neg ha]

theorem neg_step_of_le (v a : ℚ) (ha : -a ≤ v) : neg_step v a = v := by
  unfold neg_step
  rw [if_neg]
  rintro ⟨h, hgt⟩
  rw [abs_of_neg h] at hgt
  exact absurd ha (not_le.mpr hgt)

theorem neg_magnitude_max_two (a b : ℚ) :
    neg_magnitude_max ![a, b] = neg_step (neg_step 0 a) b := by
  simp [neg_magnitude_max, List.ofFn_succ]

theorem d_one : create_d_matrix (![1, 1] : Fin 2 → ℚ) = 1 := by
  unfold create_d_matrix
  have h : (fun i => max ((![1, 1] : Fin 2 → ℚ) i) eps) = fun _ => (1 : ℚ) := by
    funext i
    fin_cases i <;> norm_num [eps]
  rw [h, Matrix.diagonal_one]

theorem p_at_A1 : calculate_p_matrix (Matrix.of ![![(1:ℚ), 0]]) =
    Except.ok pA1 := by
  have hdet : (Matrix.of ![![(1:ℚ), 0]] * (Matrix.of ![![(1:ℚ), 0]]).transpose +
      eps • (1 : Matrix (Fin 1) (Fin 1) ℚ)).det = 1 + eps := by
    rw [Matrix.det_fin_one]
    simp [Matrix.mul_apply, Matrix.transpose_apply, Fin.sum_univ_two, eps,
      Matrix.vecHead, Matrix.vecTail]
  rw [calculate_p_matrix_eq_raw, hdet, Matrix.adjugate_fin_one]
  congr 1
  ext i j
  fin_cases i <;> fin_cases j <;>
    simp [pA1, Matrix.mul_apply, Matrix.transpose_apply, Matrix.one_apply,
      Fin.sum_univ_two, Fin.sum_univ_one, eps] <;>
    norm_num

theorem p_at_A2 : calculate_p_matrix (Matrix.of ![![(1:ℚ), 1]]) =
    Except.ok pA2 := by
  have hdet : (Matrix.of ![![(1:ℚ), 1]] * (Matrix.of ![![(1:ℚ), 1]]).transpose +
      eps • (1 : Matrix (Fin 1) (Fin 1) ℚ)).det = 2 + eps := by
    rw [Matrix.det_fin_one]
    simp [Matrix.mul_apply, Matrix.transpose_apply, Fin.sum_univ_two, eps,
      Matrix.vecHead, Matrix.vecTail]
    norm_num
  rw [calculate_p_matrix_eq_raw, hdet, Matrix.adjugate_fin_one]
  congr 1
  ext i j
  fin_cases i <;> fin_cases j <;>
    simp [pA2, Matrix.mul_apply, Matrix.transpose_apply, Matrix.one_apply,
      Fin.sum_univ_two, Fin.sum_univ_one, eps] <;>
    norm_num

theorem demo_ok_hp : calculate_p_matrix (calculate_a_tilde demo_ok.a_matrix
    (create_d_matrix demo_ok.x_vector)) = Except.ok pA1 := by
  have hd : create_d_matrix demo_ok.x_vector = 1 := d_one
  have ha : calculate_a_tilde demo_ok.a_matrix
      (create_d_matrix demo_ok.x_vector) = Matrix.of ![![(1:ℚ), 0]] := by
    rw [hd]
    unfold calculate_a_tilde
    rw [Matrix.mul_one]
    rfl
  rw [ha]
  exact p_at_A1

theorem demo_ok_cp : iteration_cp demo_ok = ![0, -2] := by
  have hd : create_d_matrix demo_ok.x_vector = 1 := d_one
  have hc : calculate_c_tilde demo_ok.c_vector
      (create_d_matrix demo_ok.x_vector) = ![0, -2] := by
    rw [hd]
    unfold calculate_c_tilde
    rw [Matrix.one_mulVec]
    rfl
  rw [iteration_cp_eq demo_ok pA1 demo_ok_hp, hc]
  funext i
  fin_cases i <;>
    simp [calculate_cp_vector, Matrix.mulVec, Matrix.dotProduct, pA1,
      Fin.sum_univ_two] <;> norm_num

theorem demo_ok_v : iteration_v demo_ok = 2 := by
  unfold iteration_v
  rw [demo_ok_cp, neg_magnitude_max_two, neg_step_of_nonneg 0 0 le_rfl,
    neg_step_of_gt 0 (-2) (by norm_num) (by norm_num)]
  norm_num

theorem demo_ok_eval :
    perform_interior_point_iteration demo_ok =
      (Except.ok
        { d_matrix := 1
          a_tilde_matrix := Matrix.of ![![1, 0]]
          c_tilde_vector := ![0, -2]
          p_matrix := pA1
          cp_vector := ![0, -2]
          current_x := ![1, 1 / 2] },
       { demo_ok with x_vector := ![1, 1 / 2] }) := by
  have hd : create_d_matrix demo_ok.x_vector = 1 := d_one
  have ha : calculate_a_tilde demo_ok.a_matrix
      (create_d_matrix demo_ok.x_vector) = Matrix.of ![![(1:ℚ), 0]] := by
    rw [hd]
    unfold calculate_a_tilde
    rw [Matrix.mul_one]
    rfl
  have hc : calculate_c_tilde demo_ok.c_vector
      (create_d_matrix demo_ok.x_vector) = ![0, -2] := by
    rw [hd]
    unfold calculate_c_tilde
    rw [Matrix.one_mulVec]
    rfl
  have hvlt : ¬ iteration_v demo_ok < eps := by
    rw [demo_ok_v]
    norm_num [eps]
  have hfac : max (min (demo_ok.alpha / iteration_v demo_ok) (1 / 2)) (1 / 1000) =
      (1 / 4 : ℚ) := by
    rw [demo_ok_v]
    norm_num [demo_ok]
  have hx : (create_d_matrix demo_ok.x_vector).mulVec
      (fun i => 1 +
        max (min (demo_ok.alpha / iteration_v demo_ok) (1 / 2)) (1 / 1000) *
          iteration_cp demo_ok i) = ![1, 1 / 2] := by
    rw [hd, Matrix.one_mulVec, hfac, demo_ok_cp]
    funext i
    fin_cases i <;> simp <;> norm_num
  rw [perform_eq_ok demo_ok pA1 demo_ok_hp hvlt, hx, ha, hc, demo_ok_cp, hd]

theorem demo_no_hp : calculate_p_matrix (calculate_a_tilde demo_no.a_matrix
    (create_d_matrix demo_no.x_vector)) = Except.ok pA2 := by
  have hd : create_d_matrix demo_no.x_vector = 1 := d_one
  have ha : calculate_a_tilde demo_no.a_matrix
      (create_d_matrix demo_no.x_vector) = Matrix.of ![![(1:ℚ), 1]] := by
    rw [hd]
    unfold calculate_a_tilde
    rw [Matrix.mul_one]
    rfl
  rw [ha]
  exact p_at_A2

theorem demo_no_cp : iteration_cp demo_no =
    ![-1 / 200000001, -1 / 200000001] := by
  have hd : create_d_matrix demo_no.x_vector = 1 := d_one
  have hc : calculate_c_tilde demo_no.c_vector
      (create_d_matrix demo_no.x_vector) = ![-1, -1] := by
    rw [hd]
    unfold calculate_c_tilde
    rw [Matrix.one_mulVec]
    rfl
  rw [iteration_cp_eq demo_no pA2 demo_no_hp, hc]
  funext i
  fin_cases i <;>
    simp [calculate_cp_vector, Matrix.mulVec, Matrix.dotProduct, pA2,
      Fin.sum_univ_two] <;> norm_num

theorem demo_no_v : iteration_v demo_no = 1 / 200000001 := by
  unfold iteration_v
  rw [demo_no_cp, neg_magnitude_max_two,
    neg_step_of_gt 0 (-1 / 200000001) (by norm_num) (by norm_num),
    neg_step_of_le _ _ (by norm_num)]
  norm_num

theorem demo_no_eval :
    perform_interior_point_iteration demo_no =
      (Except.error InteriorPointError.NoImprovement, demo_no) := by
  refine perform_eq_no_improvement demo_no pA2 demo_no_hp ?_
  rw [demo_no_v]
  norm_num [eps]

theorem demo_neg_hp : calculate_p_matrix (calculate_a_tilde demo_neg.a_matrix
    (create_d_matrix demo_neg.x_vector)) = Except.ok pA1 := by
  have hd : create_d_matrix demo_neg.x_vector = 1 := d_one
  have ha : calculate_a_tilde demo_neg.a_matrix
      (create_d_matrix demo_neg.x_vector) = Matrix.of ![![(1:ℚ), 0]] := by
    rw [hd]
    unfold calculate_a_tilde
    rw [Matrix.mul_one]
    rfl
  rw [ha]
  exact p_at_A1

theorem demo_neg_cp : iteration_cp demo_neg = ![0, -2000] := by
  have hd : create_d_matrix demo_neg.x_vector = 1 := d_one
  have hc : calculate_c_tilde demo_neg.c_vector
      (create_d_matrix demo_neg.x_vector) = ![0, -2000] := by
    rw [hd]
    unfold calculate_c_tilde
    rw [Matrix.one_mulVec]
    rfl
  rw [iteration_cp_eq demo_neg pA1 demo_neg_hp, hc]
  funext i
  fin_cases i <;>
    simp [calculate_cp_vector, Matrix.mulVec, Matrix.dotProduct, pA1,
      Fin.sum_univ_two] <;> norm_num

theorem demo_neg_v : iteration_v demo_neg = 2000 := by
  unfold iteration_v
  rw [demo_neg_cp, neg_magnitude_max_two, neg_step_of_nonneg 0 0 le_rfl,
    neg_step_of_gt 0 (-2000) (by norm_num) (by norm_num)]
  norm_num

theorem demo_neg_eval :
    perform_interior_point_iteration demo_neg =
      (Except.ok
        { d_matrix := 1
          a_tilde_matrix := Matrix.of ![![1, 0]]
          c_tilde_vector := ![0, -2000]
          p_matrix := pA1
          cp_vector := ![0, -2000]
          current_x := ![1, -1] },
       { demo_neg with x_vector := ![1, -1] }) := by
  have hd : create_d_matrix demo_neg.x_vector = 1 := d_one
  have ha : calculate_a_tilde demo_neg.a_matrix
      (create_d_matrix demo_neg.x_vector) = Matrix.of ![![(1:ℚ), 0]] := by
    rw [hd]
    unfold calculate_a_tilde
    rw [Matrix.mul_one]
    rfl
  have hc : calculate_c_tilde demo_neg.c_vector
      (create_d_matrix demo_neg.x_vector) = ![0, -2000] := by
    rw [hd]
    unfold calculate_c_tilde
    rw [Matrix.one_mulVec]
    rfl
  have hvlt : ¬ iteration_v demo_neg < eps := by
    rw [demo_neg_v]
    norm_num [eps]
  have hfac : max (min (demo_neg.alpha / iteration_v demo_neg) (1 / 2)) (1 / 1000) =
      (1 / 1000 : ℚ) := by
    rw [demo_neg_v]
    norm_num [demo_neg]
  have hx : (create_d_matrix demo_neg.x_vector).mulVec
      (fun i => 1 +
        max (min (demo_neg.alpha / iteration_v demo_neg) (1 / 2)) (1 / 1000) *
          iteration_cp demo_neg i) = ![1, -1] := by
    rw [hd, Matrix.one_mulVec, hfac, demo_neg_cp]
    funext i
    fin_cases i <;> simp <;> norm_num
  rw [perform_eq_ok demo_neg pA1 demo_neg_hp hvlt, hx, ha, hc, demo_neg_cp, hd]

/-! ### Claim theorems -/

/-- C1: whenever `perform_interior_point_iteration` returns `Ok`, the
snapshot fields equal exactly the five-step formulas computed from the
`x` current at entry — `D = diag(max(x i, 1e-8))`, `A~ = A·D`,
`c~ = D·c`, `P = I − A~ᵀ(A~A~ᵀ + 1e-8·I)⁻¹A~`, `cp = P·c~`,
`x_new i = D[i,i]·(1 + factor·cp i)` with
`factor = clamp(alpha/v, 1e-3, 0.5)` and `v` the largest magnitude of
the negative components of `cp` — and `Problem.x` is overwritten with
`x_new`, which also equals the snapshot's `current_x`. -/
theorem iterate_ok_matches_spec_formulas {m n : ℕ}
    (problem : InteriorPointProblem m n)
    (snap : InteriorPointIteration m n) (post : InteriorPointProblem m n)
    (h : perform_interior_point_iteration problem = (Except.ok snap, post)) :
    matches_spec_formulas problem snap post := by
  have hp := calculate_p_matrix_eq (calculate_a_tilde problem.a_matrix
    (create_d_matrix problem.x_vector))
  by_cases hv : iteration_v problem < eps
  · rw [perform_eq_no_improvement problem _ hp hv] at h
    simp at h
  · rw [perform_eq_ok problem _ hp hv] at h
    rw [Prod.mk.injEq] at h
    obtain ⟨h1, h2⟩ := h
    rw [Except.ok.injEq] at h1
    subst h1
    subst h2
    refine ⟨rfl, rfl, rfl, rfl, iteration_cp_eq problem _ hp, ?_,
      rfl, rfl, rfl, rfl, rfl, rfl⟩
    refine ⟨iteration_v problem, ?_, fun i => Matrix.mulVec_diagonal _ _ i⟩
    rcases neg_magnitude_max_cases (iteration_cp problem) with h0 | ⟨i, hneg, heq⟩
    · left
      refine ⟨fun i => ?_, h0⟩
      by_contra hlt
      push_neg at hlt
      have hb := neg_magnitude_max_ge (iteration_cp problem) i hlt
      have habs : 0 < |iteration_cp problem i| :=
        abs_pos.mpr (ne_of_lt hlt)
      rw [h0] at hb
      linarith
    · right
      exact ⟨⟨i, hneg, heq⟩, fun j hj => neg_magnitude_max_ge _ j hj⟩

/-- Witness for C1: on the concrete problem `demo_ok` the iteration
succeeds and the returned snapshot satisfies the five-step formulas. -/
theorem iterate_ok_matches_spec_formulas_witness :
    perform_interior_point_iteration demo_ok =
      (Except.ok
        { d_matrix := 1
          a_tilde_matrix := Matrix.of ![![1, 0]]
          c_tilde_vector := ![0, -2]
          p_matrix := pA1
          cp_vector := ![0, -2]
          current_x := ![1, 1 / 2] },
       { demo_ok with x_vector := ![1, 1 / 2] }) ∧
    matches_spec_formulas demo_ok
      { d_matrix := 1
        a_tilde_matrix := Matrix.of ![![1, 0]]
        c_tilde_vector := ![0, -2]
        p_matrix := pA1
        cp_vector := ![0, -2]
        current_x := ![1, 1 / 2] }
      { demo_ok with x_vector := ![1, 1 / 2] } :=
  ⟨demo_ok_eval, iterate_ok_matches_spec_formulas demo_ok _ _ demo_ok_eval⟩

/-- C2 counterexample: on `demo_neg` (all of `x` strictly positive,
`alpha = 1/2 ∈ (0,1)`) the iteration succeeds, yet the updated iterate
has `x[1] = -1 < 0`: the `1e-3` lower clamp on `factor` makes
`factor·v = 2 > 1`, pushing the scaled point out of the positive
orthant.  The interior-point invariant is NOT preserved in general. -/
theorem step_clamp_breaks_positivity_cex :
    0 < demo_neg.x_vector 0 ∧ 0 < demo_neg.x_vector 1 ∧
    0 < demo_neg.alpha ∧ demo_neg.alpha < 1 ∧
    (perform_interior_point_iteration demo_neg).1 =
      Except.ok
        { d_matrix := 1
          a_tilde_matrix := Matrix.of ![![1, 0]]
          c_tilde_vector := ![0, -2000]
          p_matrix := pA1
          cp_vector := ![0, -2000]
          current_x := ![1, -1] } ∧
    (perform_interior_point_iteration demo_neg).2.x_vector 1 < 0 := by
  refine ⟨by norm_num [demo_neg], by norm_num [demo_neg],
    by norm_num [demo_neg], by norm_num [demo_neg], ?_, ?_⟩
  · rw [demo_neg_eval]
  · rw [demo_neg_eval]
    norm_num

/-- C2 amended: the positivity invariant is preserved by a successful
iteration provided the `1e-3` lower clamp on the step factor is not the
binding one, i.e. `alpha / v ≥ 1e-3` for the `v` derived from the
current state (this is exactly the hypothesis the counterexample
violates). -/
theorem positivity_preserved_when_clamp_inactive {m n : ℕ}
    (problem : InteriorPointProblem m n)
    (hx : ∀ i, 0 < problem.x_vector i)
    (ha0 : 0 < problem.alpha) (ha1 : problem.alpha < 1)
    (hclamp : 1 / 1000 ≤ problem.alpha / iteration_v problem)
    (snap : InteriorPointIteration m n) (post : InteriorPointProblem m n)
    (h : perform_interior_point_iteration problem = (Except.ok snap, post)) :
    ∀ i, 0 < post.x_vector i := by
  have hp := calculate_p_matrix_eq (calculate_a_tilde problem.a_matrix
    (create_d_matrix problem.x_vector))
  by_cases hv : iteration_v problem < eps
  · rw [perform_eq_no_improvement problem _ hp hv] at h
    simp at h
  · rw [perform_eq_ok problem _ hp hv] at h
    rw [Prod.mk.injEq] at h
    obtain ⟨-, h2⟩ := h
    intro i
    have hpost : post.x_vector i = max (problem.x_vector i) eps *
        (1 + max (min (problem.alpha / iteration_v problem) (1 / 2)) (1 / 1000) *
          iteration_cp problem i) := by
      rw [← h2]
      exact Matrix.mulVec_diagonal _ _ i
    have hvpos : 0 < iteration_v problem := by
      have : (0 : ℚ) < eps := by norm_num [eps]
      linarith [not_lt.mp hv]
    have hfac : max (min (problem.alpha / iteration_v problem) (1 / 2)) (1 / 1000) =
        min (problem.alpha / iteration_v problem) (1 / 2) :=
      max_eq_left (le_min hclamp (by norm_num))
    have hfacpos : 0 < min (problem.alpha / iteration_v problem) (1 / 2) :=
      lt_min (div_pos ha0 hvpos) (by norm_num)
    have hfv : min (problem.alpha / iteration_v problem) (1 / 2) *
        iteration_v problem < 1 := by
      rcases le_or_lt (problem.alpha / iteration_v problem) (1 / 2) with hle | hlt
      · rw [min_eq_left hle, div_mul_cancel₀ _ (ne_of_gt hvpos)]
        exact ha1
      · rw [min_eq_right (le_of_lt hlt)]
        have : 1 / 2 * iteration_v problem < problem.alpha :=
          (lt_div_iff hvpos).mp hlt
        linarith
    have hdpos : 0 < max (problem.x_vector i) eps :=
      lt_of_lt_of_le (hx i) (le_max_left _ _)
    rw [hpost, hfac]
    refine mul_pos hdpos ?_
    rcases le_or_lt 0 (iteration_cp problem i) with hge | hneg
    · have := mul_nonneg (le_of_lt hfacpos) hge
      linarith
    · have hb := neg_magnitude_max_ge (iteration_cp problem) i hneg
      rw [abs_of_neg hneg] at hb
      have hstep : min (problem.alpha / iteration_v problem) (1 / 2) *
          (-(iteration_cp problem i)) < 1 :=
        lt_of_le_of_lt
          (mul_le_mul_of_nonneg_left hb (le_of_lt hfacpos)) hfv
    -- 1 + factor * cp i = 1 - factor * (-cp i) > 0
      nlinarith
    
/-- Witness for the amended C2: on `demo_ok` all hypotheses hold
(`alpha / v = 1/4 ≥ 1e-3`) and the updated iterate `[1, 1/2]` is again
strictly positive. -/
theorem positivity_preserved_when_clamp_inactive_witness :
    (0 < demo_ok.x_vector 0 ∧ 0 < demo_ok.x_vector 1) ∧
    (0 < demo_ok.alpha ∧ demo_ok.alpha < 1) ∧
    1 / 1000 ≤ demo_ok.alpha / iteration_v demo_ok ∧
    0 < (perform_interior_point_iteration demo_ok).2.x_vector 0 ∧
    0 < (perform_interior_point_iteration demo_ok).2.x_vector 1 := by
  have hpos := positivity_preserved_when_clamp_inactive demo_ok
    (fun i => by fin_cases i <;> norm_num [demo_ok])
    (by norm_num [demo_ok]) (by norm_num [demo_ok])
    (by rw [demo_ok_v]; norm_num [demo_ok])
    _ _ demo_ok_eval
  refine ⟨⟨by norm_num [demo_ok], by norm_num [demo_ok]⟩,
    ⟨by norm_num [demo_ok], by norm_num [demo_ok]⟩,
    by rw [demo_ok_v]; norm_num [demo_ok], ?_, ?_⟩
  · rw [demo_ok_eval]
    exact hpos 0
  · rw [demo_ok_eval]
    exact hpos 1

/-- C3: whenever `perform_interior_point_iteration` returns an error,
the `InteriorPointProblem` — every field, in particular the iterate
`x` — is left exactly as it was before the call. -/
theorem iterate_error_preserves_problem {m n : ℕ}
    (problem : InteriorPointProblem m n) (e : InteriorPointError)
    (h : (perform_interior_point_iteration problem).1 = Except.error e) :
    (perform_interior_point_iteration problem).2 = problem ∧
    (perform_interior_point_iteration problem).2.x_vector =
      problem.x_vector :=
  ⟨perform_snd_of_error problem e h,
    by rw [perform_snd_of_error problem e h]⟩

/-- Witness for C3: `demo_no` fails with `NoImprovement` and the problem
state after the call is the entry state. -/
theorem iterate_error_preserves_problem_witness :
    (perform_interior_point_iteration demo_no).1 =
      Except.error InteriorPointError.NoImprovement ∧
    (perform_interior_point_iteration demo_no).2 = demo_no := by
  have h1 : (perform_interior_point_iteration demo_no).1 =
      Except.error InteriorPointError.NoImprovement := by
    rw [demo_no_eval]
  exact ⟨h1, (iterate_error_preserves_problem demo_no
    InteriorPointError.NoImprovement h1).1⟩

/-- C10: after a `NoImprovement` result the problem is unchanged, so a
second call on that problem state deterministically returns
`NoImprovement` again and again leaves the problem unchanged. -/
theorem no_improvement_idempotent {m n : ℕ}
    (problem : InteriorPointProblem m n)
    (h : (perform_interior_point_iteration problem).1 =
      Except.error InteriorPointError.NoImprovement) :
    (perform_interior_point_iteration
        ((perform_interior_point_iteration problem).2)).1 =
      Except.error InteriorPointError.NoImprovement ∧
    (perform_interior_point_iteration
        ((perform_interior_point_iteration problem).2)).2 =
      (perform_interior_point_iteration problem).2 := by
  have hs := perform_snd_of_error problem _ h
  rw [hs]
  exact ⟨h, hs⟩

/-- Witness for C10: the second call on `demo_no` (unchanged after its
`NoImprovement`) returns `NoImprovement` again. -/
theorem no_improvement_idempotent_witness :
    (perform_interior_point_iteration demo_no).1 =
      Except.error InteriorPointError.NoImprovement ∧
    (perform_interior_point_iteration
        ((perform_interior_point_iteration demo_no).2)).1 =
      Except.error InteriorPointError.NoImprovement := by
  have h1 : (perform_interior_point_iteration demo_no).1 =
      Except.error InteriorPointError.NoImprovement := by
    rw [demo_no_eval]
  exact ⟨h1, (no_improvement_idempotent demo_no h1).1⟩

/-- C4: assuming the projector step succeeded (so `cp` is the vector
computed from the current state), the iteration returns `NoImprovement`
exactly when `v < 1e-8`, where `v` is the largest magnitude among the
negative components of `cp` (`0` when no component is negative). -/
theorem no_improvement_iff_v_below_tolerance {m n : ℕ}
    (problem : InteriorPointProblem m n) (p : Matrix (Fin n) (Fin n) ℚ)
    (hp : calculate_p_matrix (calculate_a_tilde problem.a_matrix
        (create_d_matrix problem.x_vector)) = Except.ok p) :
    ((perform_interior_point_iteration problem).1 =
        Except.error InteriorPointError.NoImprovement ↔
      iteration_v problem < eps) ∧
    (∀ i, iteration_cp problem i < 0 →
      |iteration_cp problem i| ≤ iteration_v problem) ∧
    ((∀ i, 0 ≤ iteration_cp problem i) → iteration_v problem = 0) ∧
    ((∃ i, iteration_cp problem i < 0) →
      ∃ i, iteration_cp problem i < 0 ∧
        |iteration_cp problem i| = iteration_v problem) := by
  refine ⟨perform_fst_no_improvement_iff problem,
    fun i hi => neg_magnitude_max_ge _ i hi,
    fun hnn => neg_magnitude_max_of_nonneg _ hnn, ?_⟩
  rintro ⟨i, hi⟩
  rcases neg_magnitude_max_cases (iteration_cp problem) with h0 | hex
  · exfalso
    have hb := neg_magnitude_max_ge (iteration_cp problem) i hi
    have habs : 0 < |iteration_cp problem i| := abs_pos.mpr (ne_of_lt hi)
    rw [h0] at hb
    linarith
  · exact hex

/-- Witness for C4: on the spec-§8 scenario the projector step succeeds
and the iff holds with both sides true (`v = 1/200000001 < 1e-8`). -/
theorem no_improvement_iff_v_below_tolerance_witness :
    calculate_p_matrix (calculate_a_tilde demo_no.a_matrix
        (create_d_matrix demo_no.x_vector)) = Except.ok pA2 ∧
    ((perform_interior_point_iteration demo_no).1 =
        Except.error InteriorPointError.NoImprovement ↔
      iteration_v demo_no < eps) :=
  ⟨demo_no_hp,
    (no_improvement_iff_v_below_tolerance demo_no pA2 demo_no_hp).1⟩

/-- C5 counterexample: `x = [1e-9]` is strictly positive in every
component, yet `create_d_matrix x ≠ diag(x)`: the clamp triggers on any
positive entry below `1e-8`, giving `D[0,0] = 1e-8 ≠ 1e-9`. -/
theorem create_d_matrix_clamps_small_positive_cex :
    0 < tiny_x 0 ∧ create_d_matrix tiny_x 0 0 = eps ∧
      create_d_matrix tiny_x 0 0 ≠ tiny_x 0 := by
  refine ⟨by norm_num [tiny_x], ?_, ?_⟩
  · unfold create_d_matrix
    rw [Matrix.diagonal_apply_eq]
    exact max_eq_right (by norm_num [tiny_x, eps])
  · unfold create_d_matrix
    rw [Matrix.diagonal_apply_eq,
      max_eq_right (by norm_num [tiny_x, eps] : tiny_x 0 ≤ eps)]
    norm_num [tiny_x, eps]

/-- C5 amended: for every `x` whose components are all at least `1e-8`
the clamp is inactive and `create_d_matrix x = diag(x)` exactly; every
component `x i ≤ 0` yields `D[i,i] = 1e-8` exactly; all off-diagonal
entries are `0`. -/
theorem create_d_matrix_amended_spec {n : ℕ} (x : Fin n → ℚ) :
    ((∀ i, eps ≤ x i) → create_d_matrix x = Matrix.diagonal x) ∧
    (∀ i, x i ≤ 0 → create_d_matrix x i i = eps) ∧
    (∀ i j, i ≠ j → create_d_matrix x i j = 0) := by
  refine ⟨fun h => ?_, fun i hi => ?_, fun i j hij => ?_⟩
  · unfold create_d_matrix
    have hfn : (fun i => max (x i) eps) = x := funext fun i => max_eq_left (h i)
    rw [hfn]
  · unfold create_d_matrix
    rw [Matrix.diagonal_apply_eq]
    exact max_eq_right (le_trans hi (by norm_num [eps]))
  · unfold create_d_matrix
    exact Matrix.diagonal_apply_ne _ hij

/-- Witness for the amended C5, at `x = [1, 2]` (clamp inactive),
`x = [-1]` (non-positive component) and an off-diagonal position. -/
theorem create_d_matrix_amended_spec_witness :
    create_d_matrix (![1, 2] : Fin 2 → ℚ) = Matrix.diagonal ![1, 2] ∧
    create_d_matrix (![-1] : Fin 1 → ℚ) 0 0 = eps ∧
    create_d_matrix (![1, 2] : Fin 2 → ℚ) 0 1 = 0 :=
  ⟨(create_d_matrix_amended_spec ![1, 2]).1
      (fun i => by fin_cases i <;> norm_num [eps]),
   (create_d_matrix_amended_spec ![-1]).2.1 0 (by norm_num),
   (create_d_matrix_amended_spec ![1, 2]).2.2 0 1 (by decide)⟩

/-- C6: `calculate_p_matrix` fails — with the `SingularMatrix` message
identifying the failed inversion — exactly when the regularized matrix
`M = A~A~ᵀ + 1e-8·I` is not invertible; when `M` is invertible it
returns `P = I − A~ᵀ·M⁻¹·A~`; and no error other than that
`SingularMatrix` can arise from this step. -/
theorem singular_matrix_iff_not_invertible {m n : ℕ}
    (a_tilde : Matrix (Fin m) (Fin n) ℚ) :
    (calculate_p_matrix a_tilde =
        Except.error (InteriorPointError.SingularMatrix
          "Cannot invert (A_tilde * A_tilde^T)") ↔
      ¬ IsUnit (a_tilde * a_tilde.transpose +
        eps • (1 : Matrix (Fin m) (Fin m) ℚ))) ∧
    (IsUnit (a_tilde * a_tilde.transpose +
        eps • (1 : Matrix (Fin m) (Fin m) ℚ)) →
      calculate_p_matrix a_tilde =
        Except.ok ((1 : Matrix (Fin n) (Fin n) ℚ) - a_tilde.transpose *
          (a_tilde * a_tilde.transpose + eps • 1)⁻¹ * a_tilde)) ∧
    (∀ e, calculate_p_matrix a_tilde = Except.error e →
      e = InteriorPointError.SingularMatrix
        "Cannot invert (A_tilde * A_tilde^T)") := by
  refine ⟨⟨fun h => absurd h (calculate_p_matrix_ne_error _ _),
    fun h => absurd (regularized_isUnit a_tilde) h⟩,
    fun _ => calculate_p_matrix_eq a_tilde,
    fun e he => absurd he (calculate_p_matrix_ne_error _ _)⟩

/-- Witness for C6: the regularized matrix of `A~ = [1, 0]` is
invertible, and `calculate_p_matrix` returns the projector formula. -/
theorem singular_matrix_iff_not_invertible_witness :
    calculate_p_matrix (Matrix.of ![![(1:ℚ), 0]]) =
      Except.ok ((1 : Matrix (Fin 2) (Fin 2) ℚ) -
        (Matrix.of ![![(1:ℚ), 0]]).transpose *
          (Matrix.of ![![(1:ℚ), 0]] * (Matrix.of ![![(1:ℚ), 0]]).transpose +
            eps • 1)⁻¹ * Matrix.of ![![(1:ℚ), 0]]) :=
  (singular_matrix_iff_not_invertible (Matrix.of ![![(1:ℚ), 0]])).2.1
    (regularized_isUnit _)

/-- C7 counterexample (the claim's negation): in exact arithmetic NO
input makes the regularized normal-equations matrix singular — it is
positive definite for every `A~` — and at the spec's own suggested
degenerate input (an all-zero `A~`) the regularized matrix has
determinant `1e-8 ≠ 0`, so `calculate_p_matrix` succeeds with `P = I`
instead of returning `SingularMatrix`. -/
theorem no_exactly_singular_regularized_matrix :
    (∀ m n : ℕ, ∀ a_tilde : Matrix (Fin m) (Fin n) ℚ,
      (a_tilde * a_tilde.transpose +
        eps • (1 : Matrix (Fin m) (Fin m) ℚ)).det ≠ 0) ∧
    ((0 : Matrix (Fin 1) (Fin 2) ℚ) *
        (0 : Matrix (Fin 1) (Fin 2) ℚ).transpose +
        eps • (1 : Matrix (Fin 1) (Fin 1) ℚ)).det = eps ∧
    calculate_p_matrix (0 : Matrix (Fin 1) (Fin 2) ℚ) =
      Except.ok (1 : Matrix (Fin 2) (Fin 2) ℚ) := by
  refine ⟨fun m n a_tilde => regularized_det_ne_zero a_tilde, ?_, ?_⟩
  · rw [Matrix.transpose_zero, Matrix.mul_zero, zero_add,
      Matrix.det_fin_one, Matrix.smul_apply, Matrix.one_apply_eq,
      smul_eq_mul, mul_one]
  · rw [calculate_p_matrix_eq]
    congr 1
    rw [Matrix.transpose_zero, Matrix.zero_mul, Matrix.zero_mul, sub_zero]

/-- C7 amended: a degenerate `A~` (e.g. all-zero) does make `A~·A~ᵀ`
exactly singular, but the `1e-8·I` regularization always rescues it: in
exact arithmetic `calculate_p_matrix` succeeds on every input, and the
iteration can only fail with `NoImprovement`, never `SingularMatrix` —
that error path is reachable only through floating-point effects. -/
theorem regularization_always_rescues :
    ((0 : Matrix (Fin 1) (Fin 2) ℚ) *
        (0 : Matrix (Fin 1) (Fin 2) ℚ).transpose).det = 0 ∧
    (∀ m n : ℕ, ∀ a_tilde : Matrix (Fin m) (Fin n) ℚ,
      ∃ p, calculate_p_matrix a_tilde = Except.ok p) ∧
    (∀ m n : ℕ, ∀ problem : InteriorPointProblem m n, ∀ e,
      (perform_interior_point_iteration problem).1 = Except.error e →
      e = InteriorPointError.NoImprovement) := by
  refine ⟨?_, fun m n a_tilde => ⟨_, calculate_p_matrix_eq_raw a_tilde⟩,
    fun m n problem e h => perform_error_cases problem e h⟩
  rw [Matrix.transpose_zero, Matrix.mul_zero, Matrix.det_fin_one,
    Matrix.zero_apply]

/-- C8: on the literal inputs `A = [1, 1]`, `b = [4]`, `c = [-1, -1]`,
`x0 = [1, 1]`, `alpha = 0.5` the very first call returns
`NoImprovement` — every component of the exactly computed `cp` has
magnitude `1/200000001 < 1e-8`, so no negative component reaches the
tolerance floor — and `Problem.x` remains `[1, 1]`. -/
theorem concrete_scenario_no_improvement :
    perform_interior_point_iteration demo_no =
      (Except.error InteriorPointError.NoImprovement, demo_no) ∧
    (∀ i, |iteration_cp demo_no i| < eps) ∧
    (perform_interior_point_iteration demo_no).2.x_vector = ![1, 1] := by
  refine ⟨demo_no_eval, fun i => ?_, ?_⟩
  · rw [demo_no_cp]
    fin_cases i <;> (simp; rw [abs_lt]; constructor <;> norm_num [eps])
  · rw [demo_no_eval]
    rfl

/-- C9 counterexample: `StartInteriorPoint` multiplies the cost by `+1`
when `maximize` is true and by `-1` when it is false, so the cost
handed to the iteration core is UNCHANGED for a maximization and
FLIPPED for a minimization — the opposite of the claim. -/
theorem cost_sign_convention_cex :
    (start_interior_point (Matrix.of ![![(1:ℚ), 1]]) ![4] ![2, 3] (1 / 2)
        ![1, 1] true).c_vector = ![2, 3] ∧
    (start_interior_point (Matrix.of ![![(1:ℚ), 1]]) ![4] ![2, 3] (1 / 2)
        ![1, 1] false).c_vector = ![-2, -3] ∧
    (![2, 3] : Fin 2 → ℚ) 0 ≠ -((![2, 3] : Fin 2 → ℚ) 0) := by
  refine ⟨?_, ?_, by norm_num⟩
  · funext i
    fin_cases i <;> simp [start_interior_point, apply_cost_sign]
  · funext i
    fin_cases i <;> simp [start_interior_point, apply_cost_sign]

/-- C9 amended: the cost vector handed to the iteration core is the
user's `c` unchanged when the original problem is a maximization, and
`-c` (sign-flipped) exactly when it is a minimization; the convention
is applied once, in the builder, before the first iterate call. -/
theorem cost_sign_flipped_iff_minimize {m n : ℕ}
    (a : Matrix (Fin m) (Fin n) ℚ) (b : Fin m → ℚ) (c : Fin n → ℚ)
    (alpha : ℚ) (initial : Fin n → ℚ) :
    (start_interior_point a b c alpha initial true).c_vector = c ∧
    (start_interior_point a b c alpha initial false).c_vector =
      fun i => -(c i) := by
  constructor <;> funext i <;>
    simp [start_interior_point, apply_cost_sign]
